import Mathlib

/-!
Verification of the snoopy-client rendering/simulation core.

The TypeScript sources are shallowly embedded over `ℚ`:
JavaScript numbers are modelled as rationals (all constants in the
program are decimal fractions and every claim under study is about
exact arithmetic relations, not rounding), `Math.sin` is modelled by
an arbitrary parameter `sinq : ℚ → ℚ` (no claim depends on the values
of the oscillation kernel, so every theorem below is proved for all of
them), and the module-level canvas dimensions become explicit
parameters.  String entity ids are modelled by `ℕ` keys (only
decidable equality of keys is ever used).
-/

/-- Vec2 from VectorMath.ts: `{x: number, y: number}`. -/
structure Vec2 where
  x : ℚ
  y : ℚ
deriving DecidableEq

/-- `origin` constant from VectorMath.ts. -/
def origin : Vec2 := ⟨0, 0⟩

/-- `addVectors(v1, v2)` — componentwise `v1 + v2`. -/
def addVectors (v1 v2 : Vec2) : Vec2 :=
  ⟨v1.x + v2.x, v1.y + v2.y⟩

/-- `subractVectors(v1, v2)` (sic) — componentwise `v1 - v2`. -/
def subractVectors (v1 v2 : Vec2) : Vec2 :=
  ⟨v1.x - v2.x, v1.y - v2.y⟩

/-- `multiplyVectors(v1, v2)` — componentwise `v1 * v2`. -/
def multiplyVectors (v1 v2 : Vec2) : Vec2 :=
  ⟨v1.x * v2.x, v1.y * v2.y⟩

/-- Truncation toward zero, the rounding used by the JavaScript `%`
operator (`x % y = x - y * trunc(x / y)`). -/
def ratTrunc (q : ℚ) : ℤ :=
  if 0 ≤ q then ⌊q⌋ else ⌈q⌉

/-- JavaScript remainder `x % y` on finite numbers: `none` models the
NaN produced when the divisor is zero, otherwise the remainder
`x - y * trunc(x / y)`, whose sign follows the dividend. -/
def jsRem (x y : ℚ) : Option ℚ :=
  if y = 0 then none else some (x - y * (ratTrunc (x / y) : ℚ))

/-- `modVectors(v1, v2)` — componentwise `v1 % v2`; `none` models a
NaN appearing in a component (JavaScript `x % 0` is NaN). -/
def modVectors (v1 v2 : Vec2) : Option Vec2 :=
  match jsRem v1.x v2.x, jsRem v1.y v2.y with
  | some x, some y => some ⟨x, y⟩
  | _, _ => none

/-- BulletState from Bullet.ts (ids are modelled as `ℕ` keys). -/
structure BulletState where
  id : ℕ
  position : Vec2
  velocity : Vec2
deriving DecidableEq

/-- Bullet from Bullet.ts: position, velocity and the radius field. -/
structure Bullet where
  position : Vec2
  velocity : Vec2
  radius : ℚ
deriving DecidableEq

/-- The Bullet constructor: `new Bullet(position, velocity)` sets
`radius = 10`. -/
def Bullet.create (position velocity : Vec2) : Bullet :=
  ⟨position, velocity, 10⟩

/-- `Bullet.getPosition()`. -/
def Bullet.getPosition (b : Bullet) : Vec2 := b.position

/-- `Bullet.getSize()` — radius on both axes. -/
def Bullet.getSize (b : Bullet) : Vec2 := ⟨b.radius, b.radius⟩

/-- `Bullet.update(deltaTime)`: `position += velocity * dt`. -/
def Bullet.update (deltaTime : ℚ) (b : Bullet) : Bullet :=
  { b with position := ⟨b.position.x + b.velocity.x * deltaTime,
                        b.position.y + b.velocity.y * deltaTime⟩ }

/-- `Bullet.getServerUpdate(newState)`: sets velocity and position to
the new state. -/
def Bullet.getServerUpdate (newState : BulletState) (b : Bullet) : Bullet :=
  { b with velocity := newState.velocity, position := newState.position }

/-- AgentState from ServerUtils.ts (ids modelled as `ℕ` keys). -/
structure AgentState where
  id : ℕ
  position : Vec2
  velocity : Vec2
  acceleration : Vec2
  orientation : ℚ
  cooldown : ℚ
deriving DecidableEq

/-- Agent from ServerUtils.ts: current kinematic fields plus the
`destination*` fields the server updates write into. -/
structure Agent where
  orientation : ℚ
  position : Vec2
  velocity : Vec2
  acceleration : Vec2
  cooldown : ℚ
  destinationPosition : Vec2
  destinationVelocity : Vec2
  destinationAcceleration : Vec2
  destinationOrientation : ℚ
  destinationCooldown : ℚ
deriving DecidableEq

/-- The Agent constructor: sets all properties to the given state and
sets the destination properties to the same values. -/
def Agent.fromState (state : AgentState) : Agent :=
  { orientation := state.orientation
    position := state.position
    velocity := state.velocity
    acceleration := state.acceleration
    cooldown := state.cooldown
    destinationPosition := state.position
    destinationVelocity := state.velocity
    destinationAcceleration := state.acceleration
    destinationOrientation := state.orientation
    destinationCooldown := state.cooldown }

/-- `Agent.getPosition()`. -/
def Agent.getPosition (a : Agent) : Vec2 := a.position

/-- `Agent.update(deltaTime)`: `position += velocity * dt` (with the
old velocity), then `velocity += acceleration * dt`. -/
def Agent.update (deltaTime : ℚ) (a : Agent) : Agent :=
  { a with
    position := addVectors a.position (multiplyVectors a.velocity ⟨deltaTime, deltaTime⟩)
    velocity := addVectors a.velocity (multiplyVectors a.acceleration ⟨deltaTime, deltaTime⟩) }

/-- `Agent.getServerUpdate(newState)`: sets all current attributes to
the stored destination attributes, then stores `newState` as the new
destination. -/
def Agent.getServerUpdate (newState : AgentState) (a : Agent) : Agent :=
  { a with
    position := a.destinationPosition
    velocity := a.destinationVelocity
    acceleration := a.destinationAcceleration
    orientation := a.destinationOrientation
    cooldown := a.destinationCooldown
    destinationPosition := newState.position
    destinationVelocity := newState.velocity
    destinationAcceleration := newState.acceleration
    destinationOrientation := newState.orientation
    destinationCooldown := newState.cooldown }

/-- `FOLLOW_DISTANCE` field of Camera (Scene.ts). -/
def FOLLOW_DISTANCE : ℚ := 50

/-- `lerpFactor` field of Camera (Scene.ts): `0.1`. -/
def lerpFactor : ℚ := 1 / 10

/-- `Math.sign`. -/
def jsSign (q : ℚ) : ℚ :=
  if 0 < q then 1 else if q < 0 then -1 else 0

/-- Camera state from Scene.ts.  `destinationPosition` is a function
in the source; its value at each tick is passed to `Camera.update` as
an argument.  The canvas dimensions are passed as arguments where the
source reads the module-level `canvas`. -/
structure Camera where
  pathPosition : Vec2
  axesRadii : Vec2
  scale : ℚ
  shakeTimeElapsed : ℚ
  isShaking : Bool
  augmentedPosition : Vec2
deriving DecidableEq

/-- The Camera constructor, given the current value of
`positionToCenter()`, the canvas dimensions and the `scale` argument
(every construction in the repository uses the default `scale = 1`). -/
def mkCamera (destPos0 : Vec2) (canvasW canvasH scale : ℚ) : Camera :=
  { pathPosition := destPos0
    augmentedPosition := destPos0
    scale := scale
    axesRadii := ⟨scale * (canvasW / 2), scale * (canvasH / 2)⟩
    shakeTimeElapsed := 0
    isShaking := false }

/-- `Camera.shake(deltaTime)`: marks the camera as shaking, and while
the timer is within the 500ms window offsets `augmentedPosition` from
`pathPosition` on the y axis by `sin(50*t)/t` (`0` at `t = 0`);
afterwards resets the timer and deactivates.  `sinq` models
`Math.sin`. -/
def Camera.shake (sinq : ℚ → ℚ) (deltaTime : ℚ) (c0 : Camera) : Camera :=
  let c := if c0.isShaking = false then { c0 with isShaking := true } else c0
  if c.shakeTimeElapsed ≤ 1 / 2 then
    let toAdd := if c.shakeTimeElapsed = 0 then 0
      else sinq (50 * c.shakeTimeElapsed) / c.shakeTimeElapsed
    { c with augmentedPosition := addVectors c.pathPosition ⟨0, toAdd⟩
             shakeTimeElapsed := c.shakeTimeElapsed + deltaTime }
  else
    { c with shakeTimeElapsed := 0
             isShaking := false
             augmentedPosition := c.pathPosition }

/-- `Camera.update(deltaTime)`: the follow step (per-axis lerp or
clamp, gated on either axis difference exceeding 1), then the shake
dispatch.  `destPos` is the current value of
`this.destinationPosition()`. -/
def Camera.update (sinq : ℚ → ℚ) (destPos : Vec2) (deltaTime : ℚ) (c : Camera) : Camera :=
  let diff := subractVectors destPos c.pathPosition
  let moved :=
    if 1 < |diff.x| ∨ 1 < |diff.y| then
      { c with pathPosition :=
          ⟨if diff.x ≤ FOLLOW_DISTANCE then c.pathPosition.x + diff.x * lerpFactor
            else destPos.x - jsSign diff.x * FOLLOW_DISTANCE,
           if diff.y ≤ FOLLOW_DISTANCE then c.pathPosition.y + diff.y * lerpFactor
            else destPos.y - jsSign diff.y * FOLLOW_DISTANCE⟩ }
    else c
  if moved.isShaking then Camera.shake sinq deltaTime moved
  else { moved with augmentedPosition := moved.pathPosition }

/-- `Camera.worldToScreenCoords(coord)`. -/
def Camera.worldToScreenCoords (canvasW canvasH : ℚ) (c : Camera) (coord : Vec2) : Vec2 :=
  ⟨canvasW / 2 + c.scale * (coord.x - c.augmentedPosition.x),
   canvasH / 2 + c.scale * (coord.y - c.augmentedPosition.y)⟩

/-- `Camera.computeWorldBounds()`: `(topLeft, bottomRight)`. -/
def Camera.computeWorldBounds (c : Camera) : Vec2 × Vec2 :=
  (⟨c.augmentedPosition.x - c.axesRadii.x / c.scale,
    c.augmentedPosition.y - c.axesRadii.y / c.scale⟩,
   ⟨c.augmentedPosition.x + c.axesRadii.x / c.scale,
    c.augmentedPosition.y + c.axesRadii.y / c.scale⟩)

/-- `Camera.coordWithinBounds(coord)`. -/
def Camera.coordWithinBounds (c : Camera) (coord : Vec2) : Bool :=
  let topLeft := c.computeWorldBounds.1
  let bottomRight := c.computeWorldBounds.2
  decide (coord.x ≥ topLeft.x) && decide (coord.y ≥ topLeft.y)
    && decide (coord.x ≤ bottomRight.x) && decide (coord.y ≤ bottomRight.y)

/-- A scene object as the Camera sees it: the values of
`getPosition()` and `getSize()`. -/
structure SceneObject where
  position : Vec2
  size : Vec2
deriving DecidableEq

/-- The object-drawing loop of `Camera.renderAll()`: returns, in scene
order, the `(screenPos, scaledSize)` pair passed to `drawSprite` for
each object that passes the culling check. -/
def Camera.renderAll (canvasW canvasH : ℚ) (c : Camera) : List SceneObject → List (Vec2 × Vec2)
  | [] => []
  | o :: rest =>
    let scaledSize := multiplyVectors ⟨c.scale, c.scale⟩ o.size
    if c.coordWithinBounds o.position then
      (Camera.worldToScreenCoords canvasW canvasH c o.position, scaledSize)
        :: Camera.renderAll canvasW canvasH c rest
    else
      Camera.renderAll canvasW canvasH c rest

/-- The DebugCamera wheel listener: `scale += deltaY * -0.01`, then
clamp to `[0.125, 3]` via `Math.min(Math.max(.125, scale), 3)`.  It
does not touch `axesRadii`. -/
def wheelZoom (deltaY : ℚ) (c : Camera) : Camera :=
  { c with scale := min (max (1 / 8) (c.scale + deltaY * (-1 / 100))) 3 }

/-- The operations that can hit a camera after construction: a frame
update, a scroll-wheel zoom, an externally triggered shake, and the
DebugCamera arrow-key pan (which adds a velocity vector to
`augmentedPosition`). -/
inductive CamEvent where
  | updateEv (destPos : Vec2) (dt : ℚ)
  | wheelEv (deltaY : ℚ)
  | shakeEv (dt : ℚ)
  | panEv (delta : Vec2)
deriving DecidableEq

/-- One camera event. -/
def stepCam (sinq : ℚ → ℚ) (c : Camera) : CamEvent → Camera
  | .updateEv destPos dt => Camera.update sinq destPos dt c
  | .wheelEv deltaY => wheelZoom deltaY c
  | .shakeEv dt => Camera.shake sinq dt c
  | .panEv delta => { c with augmentedPosition := addVectors delta c.augmentedPosition }

/-- A camera evolved through a sequence of events. -/
def runCam (sinq : ℚ → ℚ) (c0 : Camera) (evs : List CamEvent) : Camera :=
  evs.foldl (stepCam sinq) c0

/-- `n` frame updates with fixed `deltaTime`, the destination read
from `dests` at each tick. -/
def runUpdates (sinq : ℚ → ℚ) (dests : ℕ → Vec2) (dt : ℚ) (c : Camera) : ℕ → Camera
  | 0 => c
  | n + 1 => Camera.update sinq (dests n) dt (runUpdates sinq dests dt c n)

/-- The bullet block of `GameWorld.gameLoop`: for each key mentioned
in the snapshot, the tracked list for that key is cleared and rebuilt
from the snapshot's list (one `new Bullet(position, velocity)` per
entry); keys not mentioned keep their tracked bullets. -/
def ingestBullets (m : ℕ → Option (List Bullet)) :
    List (ℕ × List BulletState) → ℕ → Option (List Bullet)
  | [], k => m k
  | kv :: rest, k =>
    ingestBullets
      (fun k' => if k' = kv.1 then some (kv.2.map fun s => Bullet.create s.position s.velocity)
                 else m k')
      rest k

/-! ### Helper lemmas -/

/-- Two vectors with equal components are equal. -/
theorem Vec2.ext_iff2 (v w : Vec2) : v = w ↔ v.x = w.x ∧ v.y = w.y := by
  cases v; cases w; simp

/-- `shake` never moves `pathPosition`. -/
theorem shake_pathPosition (sinq : ℚ → ℚ) (dt : ℚ) (c : Camera) :
    (Camera.shake sinq dt c).pathPosition = c.pathPosition := by
  simp only [Camera.shake]
  split_ifs <;> rfl

/-- `shake` never changes `scale`. -/
theorem shake_scale (sinq : ℚ → ℚ) (dt : ℚ) (c : Camera) :
    (Camera.shake sinq dt c).scale = c.scale := by
  simp only [Camera.shake]
  split_ifs <;> rfl

/-- `shake` never changes `axesRadii`. -/
theorem shake_axesRadii (sinq : ℚ → ℚ) (dt : ℚ) (c : Camera) :
    (Camera.shake sinq dt c).axesRadii = c.axesRadii := by
  simp only [Camera.shake]
  split_ifs <;> rfl

/-- `update` never changes `scale`. -/
theorem update_scale (sinq : ℚ → ℚ) (destPos : Vec2) (dt : ℚ) (c : Camera) :
    (Camera.update sinq destPos dt c).scale = c.scale := by
  simp only [Camera.update]
  split_ifs <;> simp [shake_scale]

/-- `update` never changes `axesRadii`. -/
theorem update_axesRadii (sinq : ℚ → ℚ) (destPos : Vec2) (dt : ℚ) (c : Camera) :
    (Camera.update sinq destPos dt c).axesRadii = c.axesRadii := by
  simp only [Camera.update]
  split_ifs <;> simp [shake_axesRadii]

/-- What `update` does to `pathPosition` (the follow step; the shake
dispatch afterwards does not move it). -/
theorem update_pathPosition (sinq : ℚ → ℚ) (destPos : Vec2) (dt : ℚ) (c : Camera) :
    (Camera.update sinq destPos dt c).pathPosition =
      (if 1 < |(subractVectors destPos c.pathPosition).x|
          ∨ 1 < |(subractVectors destPos c.pathPosition).y| then
        (⟨if (subractVectors destPos c.pathPosition).x ≤ FOLLOW_DISTANCE then
             c.pathPosition.x + (subractVectors destPos c.pathPosition).x * lerpFactor
           else destPos.x - jsSign (subractVectors destPos c.pathPosition).x * FOLLOW_DISTANCE,
          if (subractVectors destPos c.pathPosition).y ≤ FOLLOW_DISTANCE then
             c.pathPosition.y + (subractVectors destPos c.pathPosition).y * lerpFactor
           else destPos.y - jsSign (subractVectors destPos c.pathPosition).y * FOLLOW_DISTANCE⟩ : Vec2)
      else c.pathPosition) := by
  simp only [Camera.update]
  split_ifs <;> simp [shake_pathPosition]

/-- A frame update on a camera that is not shaking: stays not
shaking, keeps the timer, and re-synchronises `augmentedPosition`
with the (new) `pathPosition`. -/
theorem update_of_not_shaking (sinq : ℚ → ℚ) (destPos : Vec2) (dt : ℚ) (c : Camera)
    (h : c.isShaking = false) :
    (Camera.update sinq destPos dt c).isShaking = false ∧
    (Camera.update sinq destPos dt c).shakeTimeElapsed = c.shakeTimeElapsed ∧
    (Camera.update sinq destPos dt c).augmentedPosition =
      (Camera.update sinq destPos dt c).pathPosition := by
  simp only [Camera.update]
  split_ifs <;> simp_all

/-- A frame update on a shaking camera whose timer is within the
window: stays shaking and advances the timer by `dt`. -/
theorem update_of_shaking_le (sinq : ℚ → ℚ) (destPos : Vec2) (dt : ℚ) (c : Camera)
    (h : c.isShaking = true) (ht : c.shakeTimeElapsed ≤ 1 / 2) :
    (Camera.update sinq destPos dt c).isShaking = true ∧
    (Camera.update sinq destPos dt c).shakeTimeElapsed = c.shakeTimeElapsed + dt := by
  simp only [Camera.update, Camera.shake]
  split_ifs <;> simp_all

/-- A frame update on a shaking camera whose timer has passed the
window: deactivates, zeroes the timer, and restores
`augmentedPosition = pathPosition`. -/
theorem update_of_shaking_gt (sinq : ℚ → ℚ) (destPos : Vec2) (dt : ℚ) (c : Camera)
    (h : c.isShaking = true) (ht : ¬ c.shakeTimeElapsed ≤ 1 / 2) :
    (Camera.update sinq destPos dt c).isShaking = false ∧
    (Camera.update sinq destPos dt c).shakeTimeElapsed = 0 ∧
    (Camera.update sinq destPos dt c).augmentedPosition =
      (Camera.update sinq destPos dt c).pathPosition := by
  simp only [Camera.update, Camera.shake]
  split_ifs <;> simp_all

/-- Triggering `shake` on a camera at rest: activates, sets the timer
to the `deltaTime` it was called with, does not move `pathPosition`. -/
theorem shake_trigger (sinq : ℚ → ℚ) (dt0 : ℚ) (c : Camera)
    (h : c.isShaking = false) (ht : c.shakeTimeElapsed = 0) :
    (Camera.shake sinq dt0 c).isShaking = true ∧
    (Camera.shake sinq dt0 c).shakeTimeElapsed = dt0 := by
  simp only [Camera.shake]
  split_ifs <;> simp_all

/-- Lower world bound versus the on-screen coordinate, for positive
scale. -/
theorem sub_div_le_iff_screen (s r a p : ℚ) (hs : 0 < s) :
    a - r / s ≤ p ↔ 0 ≤ r + s * (p - a) := by
  constructor
  · intro h
    have h2 : (a - p) * s ≤ r := (le_div_iff₀ hs).mp (by linarith)
    nlinarith [h2]
  · intro h
    have h2 : (a - p) * s ≤ r := by nlinarith
    have h3 : a - p ≤ r / s := (le_div_iff₀ hs).mpr h2
    linarith

/-- Upper world bound versus the on-screen coordinate, for positive
scale. -/
theorem le_add_div_iff_screen (s r a p : ℚ) (hs : 0 < s) :
    p ≤ a + r / s ↔ r + s * (p - a) ≤ r + r := by
  constructor
  · intro h
    have h2 : (p - a) * s ≤ r := (le_div_iff₀ hs).mp (by linarith)
    nlinarith [h2]
  · intro h
    have h2 : (p - a) * s ≤ r := by nlinarith
    have h3 : p - a ≤ r / s := (le_div_iff₀ hs).mpr h2
    linarith

/-- The culling predicate as the four inclusive world-space
inequalities `augmentedPosition ± axesRadii / scale`. -/
theorem coordWithinBounds_iff (c : Camera) (p : Vec2) :
    c.coordWithinBounds p = true ↔
      (c.augmentedPosition.x - c.axesRadii.x / c.scale ≤ p.x ∧
       c.augmentedPosition.y - c.axesRadii.y / c.scale ≤ p.y ∧
       p.x ≤ c.augmentedPosition.x + c.axesRadii.x / c.scale ∧
       p.y ≤ c.augmentedPosition.y + c.axesRadii.y / c.scale) := by
  simp only [Camera.coordWithinBounds, Camera.computeWorldBounds, Bool.and_eq_true,
    decide_eq_true_eq, ge_iff_le]
  tauto

/-- No camera event ever touches `axesRadii`. -/
theorem stepCam_axesRadii (sinq : ℚ → ℚ) (c : Camera) (e : CamEvent) :
    (stepCam sinq c e).axesRadii = c.axesRadii := by
  cases e <;> simp [stepCam, update_axesRadii, shake_axesRadii, wheelZoom]

/-- `runCam` on a cons. -/
theorem runCam_cons (sinq : ℚ → ℚ) (c : Camera) (e : CamEvent) (evs : List CamEvent) :
    runCam sinq c (e :: evs) = runCam sinq (stepCam sinq c e) evs := rfl

/-- `axesRadii` is invariant under any event sequence. -/
theorem runCam_axesRadii (sinq : ℚ → ℚ) (c : Camera) (evs : List CamEvent) :
    (runCam sinq c evs).axesRadii = c.axesRadii := by
  induction evs generalizing c with
  | nil => rfl
  | cons e rest ih => rw [runCam_cons, ih, stepCam_axesRadii]

/-- Every camera event keeps `scale` positive (a wheel event clamps
into `[1/8, 3]`, the others keep `scale`). -/
theorem stepCam_scale_pos (sinq : ℚ → ℚ) (c : Camera) (e : CamEvent) (h : 0 < c.scale) :
    0 < (stepCam sinq c e).scale := by
  cases e with
  | updateEv d dt => simpa [stepCam, update_scale] using h
  | wheelEv dy =>
    simp only [stepCam, wheelZoom]
    exact lt_min (lt_of_lt_of_le (by norm_num) (le_max_left _ _)) (by norm_num)
  | shakeEv dt => simpa [stepCam, shake_scale] using h
  | panEv v => simpa [stepCam] using h

/-- `scale` stays positive along any event sequence. -/
theorem runCam_scale_pos (sinq : ℚ → ℚ) (c : Camera) (evs : List CamEvent) (h : 0 < c.scale) :
    0 < (runCam sinq c evs).scale := by
  induction evs generalizing c with
  | nil => exact h
  | cons e rest ih => rw [runCam_cons]; exact ih _ (stepCam_scale_pos _ _ _ h)

/-- Per-axis effect of one `update` on the signed x-difference to the
destination: it keeps the sign, never grows in magnitude, and shrinks
strictly whenever the magnitude exceeds 1. -/
theorem followStep_x (sinq : ℚ → ℚ) (destPos : Vec2) (dt : ℚ) (c : Camera) :
    (0 ≤ destPos.x - c.pathPosition.x →
       0 ≤ destPos.x - (Camera.update sinq destPos dt c).pathPosition.x ∧
       destPos.x - (Camera.update sinq destPos dt c).pathPosition.x ≤
         destPos.x - c.pathPosition.x) ∧
    (destPos.x - c.pathPosition.x ≤ 0 →
       destPos.x - c.pathPosition.x ≤
         destPos.x - (Camera.update sinq destPos dt c).pathPosition.x ∧
       destPos.x - (Camera.update sinq destPos dt c).pathPosition.x ≤ 0) ∧
    (1 < |destPos.x - c.pathPosition.x| →
       |destPos.x - (Camera.update sinq destPos dt c).pathPosition.x| <
         |destPos.x - c.pathPosition.x|) := by
  rw [update_pathPosition]
  simp only [subractVectors]
  by_cases hg : 1 < |destPos.x - c.pathPosition.x| ∨ 1 < |destPos.y - c.pathPosition.y|
  · rw [if_pos hg]
    dsimp only
    by_cases hx : destPos.x - c.pathPosition.x ≤ FOLLOW_DISTANCE
    · -- lerp branch: d becomes d - d/10
      rw [if_pos hx]
      simp only [lerpFactor]
      set d := destPos.x - c.pathPosition.x with hd
      refine ⟨fun h0 => ⟨by linarith, by linarith⟩,
              fun h0 => ⟨by linarith, by linarith⟩, fun h1 => ?_⟩
      rcases le_or_lt 0 d with h0 | h0
      · rw [abs_of_nonneg h0] at h1 ⊢
        rw [abs_of_nonneg (by linarith)]
        linarith
      · rw [abs_of_neg h0] at h1 ⊢
        rw [abs_of_neg (by linarith)]
        linarith
    · -- clamp branch: 50 < d, new difference is exactly 50
      rw [if_neg hx]
      have h50 : (50 : ℚ) < destPos.x - c.pathPosition.x := by
        simpa [FOLLOW_DISTANCE] using not_le.mp hx
      have hs : jsSign (destPos.x - c.pathPosition.x) = 1 := by
        simp [jsSign, show (0:ℚ) < destPos.x - c.pathPosition.x by linarith]
      rw [hs, FOLLOW_DISTANCE]
      rw [show destPos.x - (destPos.x - 1 * 50) = 50 by ring]
      refine ⟨fun h0 => ⟨by norm_num, by linarith⟩,
              fun h0 => absurd h0 (by push_neg; linarith), fun h1 => ?_⟩
      rw [abs_of_pos (by linarith : (0:ℚ) < destPos.x - c.pathPosition.x)]
      rw [abs_of_pos (by norm_num : (0:ℚ) < 50)]
      linarith
  · -- gate closed: pathPosition unchanged
    rw [if_neg hg]
    push_neg at hg
    refine ⟨fun h0 => ⟨h0, le_refl _⟩, fun h0 => ⟨le_refl _, h0⟩, fun h1 => ?_⟩
    exact absurd h1 (not_lt.mpr hg.1)

/-- Truncation toward zero is odd. -/
theorem ratTrunc_neg (q : ℚ) : ratTrunc (-q) = -ratTrunc q := by
  unfold ratTrunc
  rcases lt_trichotomy q 0 with h | h | h
  · rw [if_pos (by linarith : (0:ℚ) ≤ -q), if_neg (by linarith : ¬ (0:ℚ) ≤ q), Int.floor_neg]
  · subst h
    simp
  · rw [if_neg (by linarith : ¬ (0:ℚ) ≤ -q), if_pos h.le, Int.ceil_neg]

/-- A JavaScript remainder of a nonnegative dividend is nonnegative. -/
theorem jsRem_nonneg (x y r : ℚ) (hx : 0 ≤ x) (h : jsRem x y = some r) : 0 ≤ r := by
  unfold jsRem at h
  split_ifs at h with hy
  rw [Option.some.injEq] at h
  subst h
  rcases lt_trichotomy y 0 with hneg | h0 | hpos
  · have hq : x / y ≤ 0 := div_nonpos_of_nonneg_of_nonpos hx hneg.le
    rcases eq_or_lt_of_le hq with hq0 | hqneg
    · have hx0 : x = 0 := by
        rcases div_eq_zero_iff.mp hq0 with h1 | h1
        · exact h1
        · exact absurd h1 hy
      simp [hx0, ratTrunc]
    · have ht : (x / y : ℚ) ≤ (⌈x / y⌉ : ℚ) := Int.le_ceil _
      unfold ratTrunc
      rw [if_neg (not_le.mpr hqneg)]
      have hxy : x / y * y = x := div_mul_cancel₀ x (ne_of_lt hneg)
      nlinarith [mul_le_mul_of_nonpos_left ht hneg.le]
  · exact absurd h0 hy
  · have hq : 0 ≤ x / y := div_nonneg hx hpos.le
    unfold ratTrunc
    rw [if_pos hq]
    have ht : ((⌊x / y⌋ : ℤ) : ℚ) ≤ x / y := Int.floor_le _
    have hxy : x / y * y = x := div_mul_cancel₀ x (ne_of_gt hpos)
    nlinarith [mul_le_mul_of_nonneg_left ht hpos.le]

/-- A JavaScript remainder of a nonpositive dividend is nonpositive. -/
theorem jsRem_nonpos (x y r : ℚ) (hx : x ≤ 0) (h : jsRem x y = some r) : r ≤ 0 := by
  have h2 : jsRem (-x) y = some (-r) := by
    unfold jsRem at h ⊢
    split_ifs at h ⊢ with hy
    rw [Option.some.injEq] at h ⊢
    rw [neg_div, ratTrunc_neg]
    push_cast
    linarith
  linarith [jsRem_nonneg (-x) y (-r) (by linarith) h2]

/-! ### Claims -/

/-- C9 counterexample: `mod(a,a)` is not `{0,0}` for every vector:
at `a = {0,0}` the JavaScript remainder `0 % 0` is NaN (modelled
`none`), which compares unequal to `{0,0}`. -/
theorem c9_mod_zero_counterexample :
    modVectors origin origin = none ∧ modVectors origin origin ≠ some origin := by
  constructor
  · simp [modVectors, jsRem, origin]
  · simp [modVectors, jsRem, origin]

/-- C9 (amended): for all vectors, `add` is commutative with identity
`{0,0}`, `subtract(a,a) = {0,0}`, `multiply(a,{0,0}) = {0,0}`, and
`mod(a,a) = {0,0}` for every `a` whose components are both nonzero
(at a zero component, `x % 0` is NaN); moreover the remainder's sign
follows the dividend's sign. -/
theorem c9_vector_algebra_amended :
    (∀ a b : Vec2, addVectors a b = addVectors b a) ∧
    (∀ a : Vec2, addVectors a origin = a) ∧
    (∀ a : Vec2, subractVectors a a = origin) ∧
    (∀ a : Vec2, multiplyVectors a origin = origin) ∧
    (∀ a : Vec2, a.x ≠ 0 → a.y ≠ 0 → modVectors a a = some origin) ∧
    (∀ x y r : ℚ, jsRem x y = some r → (0 ≤ x → 0 ≤ r) ∧ (x ≤ 0 → r ≤ 0)) := by
  refine ⟨?_, ?_, ?_, ?_, ?_, ?_⟩
  · intro a b
    simp [addVectors, Vec2.ext_iff2, add_comm]
  · intro a
    simp [addVectors, origin, Vec2.ext_iff2]
  · intro a
    simp [subractVectors, origin, Vec2.ext_iff2]
  · intro a
    simp [multiplyVectors, origin, Vec2.ext_iff2]
  · intro a hx hy
    have e1 : jsRem a.x a.x = some 0 := by
      unfold jsRem
      rw [if_neg hx, div_self hx]
      norm_num [ratTrunc]
    have e2 : jsRem a.y a.y = some 0 := by
      unfold jsRem
      rw [if_neg hy, div_self hy]
      norm_num [ratTrunc]
    simp [modVectors, e1, e2, origin]
  · intro x y r h
    exact ⟨fun hx => jsRem_nonneg x y r hx h, fun hx => jsRem_nonpos x y r hx h⟩

/-- C9 witness: the amended `mod(a,a)` identity at `a = {2,3}`. -/
theorem c9_vector_algebra_amended_witness :
    ((⟨2, 3⟩ : Vec2)).x ≠ 0 ∧ ((⟨2, 3⟩ : Vec2)).y ≠ 0 ∧
      modVectors ⟨2, 3⟩ ⟨2, 3⟩ = some origin := by
  refine ⟨by norm_num, by norm_num, ?_⟩
  exact c9_vector_algebra_amended.2.2.2.2.1 ⟨2, 3⟩ (by norm_num) (by norm_num)

/-- C2 counterexample: the spec's end-to-end scenario.  An Agent
constructed at `{0,0}` with velocity `{10,0}`, after `update(1.0)`,
reports position `{10,0}`; after `getServerUpdate` with position
`{5,5}` it reports `{0,0}` — the constructor-time destination — and
not the authoritative `{5,5}` the claim requires. -/
theorem c2_agent_lags_counterexample :
    (Agent.update 1 (Agent.fromState ⟨0, ⟨0, 0⟩, ⟨10, 0⟩, ⟨0, 0⟩, 0, 0⟩)).getPosition = ⟨10, 0⟩ ∧
    (Agent.getServerUpdate ⟨0, ⟨5, 5⟩, ⟨0, 0⟩, ⟨0, 0⟩, 0, 0⟩
        (Agent.update 1 (Agent.fromState ⟨0, ⟨0, 0⟩, ⟨10, 0⟩, ⟨0, 0⟩, 0, 0⟩))).getPosition
      = ⟨0, 0⟩ ∧
    (Agent.getServerUpdate ⟨0, ⟨5, 5⟩, ⟨0, 0⟩, ⟨0, 0⟩, 0, 0⟩
        (Agent.update 1 (Agent.fromState ⟨0, ⟨0, 0⟩, ⟨10, 0⟩, ⟨0, 0⟩, 0, 0⟩))).getPosition
      ≠ ⟨5, 5⟩ := by
  refine ⟨?_, ?_, ?_⟩ <;>
    norm_num [Agent.getServerUpdate, Agent.update, Agent.fromState, Agent.getPosition,
      addVectors, multiplyVectors, Vec2.ext_iff2]

/-- C2 (amended): `Bullet.getServerUpdate` replaces the kinematic
fields immediately, so `getPosition` returns the snapshot position;
`Agent.getServerUpdate` instead sets the live fields to the
previously stored destination values and records the snapshot as the
new destination, so the snapshot's position is only reported after a
second `getServerUpdate`. -/
theorem c2_server_update_amended :
    (∀ (b : Bullet) (s : BulletState), (Bullet.getServerUpdate s b).getPosition = s.position) ∧
    (∀ (a : Agent) (s : AgentState),
       (Agent.getServerUpdate s a).getPosition = a.destinationPosition) ∧
    (∀ (a : Agent) (s s2 : AgentState),
       (Agent.getServerUpdate s2 (Agent.getServerUpdate s a)).getPosition = s.position) :=
  ⟨fun _ _ => rfl, fun _ _ => rfl, fun _ _ _ => rfl⟩

/-- C3 counterexample: from the default construction (canvas 800×600,
scale 1), one wheel event with `deltaY = -100` sets `scale = 2` but
leaves `axesRadii = {400,300}`, so `axesRadii ≠ scale * halfExtent`. -/
theorem c3_axesRadii_stale_counterexample :
    (runCam (fun _ => 0) (mkCamera origin 800 600 1) [CamEvent.wheelEv (-100)]).scale = 2 ∧
    (runCam (fun _ => 0) (mkCamera origin 800 600 1) [CamEvent.wheelEv (-100)]).axesRadii
      = ⟨400, 300⟩ ∧
    (runCam (fun _ => 0) (mkCamera origin 800 600 1) [CamEvent.wheelEv (-100)]).axesRadii
      ≠ ⟨(runCam (fun _ => 0) (mkCamera origin 800 600 1) [CamEvent.wheelEv (-100)]).scale * (800 / 2),
         (runCam (fun _ => 0) (mkCamera origin 800 600 1) [CamEvent.wheelEv (-100)]).scale * (600 / 2)⟩ := by
  refine ⟨?_, ?_, ?_⟩ <;>
    norm_num [runCam, stepCam, wheelZoom, mkCamera, origin, Vec2.ext_iff2]

/-- C3 (amended): `axesRadii` keeps its constructor value
`constructorScale * halfExtent` through every sequence of camera
events — a wheel zoom changes `scale` but never recomputes
`axesRadii`, so after a zoom that changes `scale` the claimed
invariant `axesRadii = scale * halfExtent` no longer holds. -/
theorem c3_axesRadii_never_recomputed :
    ∀ (sinq : ℚ → ℚ) (d0 : Vec2) (w h s0 : ℚ) (evs : List CamEvent),
      (runCam sinq (mkCamera d0 w h s0) evs).axesRadii = ⟨s0 * (w / 2), s0 * (h / 2)⟩ := by
  intro sinq d0 w h s0 evs
  rw [runCam_axesRadii]
  rfl

/-- C6: `renderAll` draws exactly the objects whose position passes
`coordWithinBounds`, which is the inclusive box
`augmentedPosition ± axesRadii / scale` on both axes; concretely, for
the camera centered at `(0,0)` with `axesRadii = {100,100}` and
`scale = 1`, the object at `(50,50)` is drawn and the one at `(150,0)`
is not. -/
theorem c6_render_iff_bounds :
    (∀ (w h : ℚ) (c : Camera) (scene : List SceneObject),
       Camera.renderAll w h c scene =
         (scene.filter fun o => c.coordWithinBounds o.position).map
           (fun o => (Camera.worldToScreenCoords w h c o.position,
                      multiplyVectors ⟨c.scale, c.scale⟩ o.size))) ∧
    (∀ (c : Camera) (p : Vec2),
       c.coordWithinBounds p = true ↔
         (c.augmentedPosition.x - c.axesRadii.x / c.scale ≤ p.x ∧
          c.augmentedPosition.y - c.axesRadii.y / c.scale ≤ p.y ∧
          p.x ≤ c.augmentedPosition.x + c.axesRadii.x / c.scale ∧
          p.y ≤ c.augmentedPosition.y + c.axesRadii.y / c.scale)) ∧
    (mkCamera origin 200 200 1).coordWithinBounds ⟨50, 50⟩ = true ∧
    (mkCamera origin 200 200 1).coordWithinBounds ⟨150, 0⟩ = false := by
  refine ⟨?_, coordWithinBounds_iff, ?_, ?_⟩
  · intro w h c scene
    induction scene with
    | nil => rfl
    | cons o rest ih =>
      by_cases hc : c.coordWithinBounds o.position = true
      · simp [Camera.renderAll, List.filter_cons, hc, ih]
      · simp [Camera.renderAll, List.filter_cons, hc, ih]
  · norm_num [Camera.coordWithinBounds, Camera.computeWorldBounds, mkCamera, origin]
  · norm_num [Camera.coordWithinBounds, Camera.computeWorldBounds, mkCamera, origin]

/-- C10: while the shake window is open, the offset applied to
`pathPosition` to form `augmentedPosition` is on the y axis only and
equals `sin(50*t)/t` for shake time `t ≠ 0` and exactly `0` at
`t = 0`, so the first shake frame leaves
`augmentedPosition = pathPosition` (for every oscillation kernel
`sinq` standing for `Math.sin`). -/
theorem c10_shake_offset :
    ∀ (sinq : ℚ → ℚ) (dt : ℚ) (c : Camera), c.shakeTimeElapsed ≤ 1 / 2 →
      (Camera.shake sinq dt c).augmentedPosition =
        (⟨c.pathPosition.x,
          c.pathPosition.y + (if c.shakeTimeElapsed = 0 then 0
            else sinq (50 * c.shakeTimeElapsed) / c.shakeTimeElapsed)⟩ : Vec2) ∧
      (Camera.shake sinq dt c).augmentedPosition.x = c.pathPosition.x ∧
      (c.shakeTimeElapsed = 0 →
        (Camera.shake sinq dt c).augmentedPosition = c.pathPosition) := by
  intro sinq dt c ht
  have main : (Camera.shake sinq dt c).augmentedPosition =
      (⟨c.pathPosition.x,
        c.pathPosition.y + (if c.shakeTimeElapsed = 0 then 0
          else sinq (50 * c.shakeTimeElapsed) / c.shakeTimeElapsed)⟩ : Vec2) := by
    simp only [Camera.shake]
    split_ifs <;> simp_all [addVectors, Vec2.ext_iff2]
  refine ⟨main, by rw [main], fun h0 => ?_⟩
  rw [main]
  simp [h0, Vec2.ext_iff2]

/-- C10 witness: a camera fresh out of the constructor has shake time
0, and the first shake frame leaves `augmentedPosition` at
`pathPosition`. -/
theorem c10_shake_offset_witness :
    (mkCamera ⟨3, 4⟩ 800 600 1).shakeTimeElapsed ≤ 1 / 2 ∧
    (Camera.shake (fun _ => 1) (1 / 60) (mkCamera ⟨3, 4⟩ 800 600 1)).augmentedPosition =
      (mkCamera ⟨3, 4⟩ 800 600 1).pathPosition := by
  constructor
  · norm_num [mkCamera]
  · exact (c10_shake_offset (fun _ => 1) (1 / 60) (mkCamera ⟨3, 4⟩ 800 600 1)
      (by norm_num [mkCamera])).2.2 (by norm_num [mkCamera])

/-- Keys not mentioned in a snapshot keep their tracked bullets. -/
theorem ingestBullets_not_mem (m : ℕ → Option (List Bullet)) (snap : List (ℕ × List BulletState))
    (k : ℕ) (hk : k ∉ snap.map Prod.fst) : ingestBullets m snap k = m k := by
  induction snap generalizing m with
  | nil => rfl
  | cons kv rest ih =>
    simp only [List.map_cons, List.mem_cons] at hk
    push_neg at hk
    simp only [ingestBullets]
    rw [ih _ hk.2]
    rw [if_neg hk.1]

/-- C5: after a snapshot ingest, each bullet-group key mentioned in
the snapshot (snapshot keys distinct, as object keys are) tracks
exactly one `new Bullet(position, velocity)` per entry of the
snapshot's list for that key and nothing else; old bullets are
discarded, not appended. -/
theorem c5_bullets_replaced :
    ∀ (m : ℕ → Option (List Bullet)) (snap : List (ℕ × List BulletState)) (k : ℕ)
      (l : List BulletState),
      (snap.map Prod.fst).Nodup → (k, l) ∈ snap →
      ingestBullets m snap k = some (l.map fun s => Bullet.create s.position s.velocity) := by
  intro m snap
  induction snap generalizing m with
  | nil =>
    intro k l _ hmem
    exact absurd hmem (List.not_mem_nil _)
  | cons kv rest ih =>
    intro k l hnd hmem
    simp only [List.map_cons, List.nodup_cons] at hnd
    rcases List.mem_cons.mp hmem with heq | hrest
    · obtain ⟨hk, hl⟩ : k = kv.1 ∧ l = kv.2 := by
        cases kv
        exact ⟨congrArg Prod.fst heq, congrArg Prod.snd heq⟩
      simp only [ingestBullets]
      rw [ingestBullets_not_mem _ _ _ (by rw [hk]; exact hnd.1)]
      rw [if_pos hk, hl]
    · simp only [ingestBullets]
      exact ih _ k l hnd.2 hrest

/-- C5 witness: a key tracked with 2 bullets receiving a snapshot
with 1 bullet for that key ends with exactly that 1 bullet. -/
theorem c5_bullets_replaced_witness :
    ((([(1, [(⟨7, ⟨2, 2⟩, ⟨3, 3⟩⟩ : BulletState)])] : List (ℕ × List BulletState)).map
        Prod.fst).Nodup) ∧
    ((1, [(⟨7, ⟨2, 2⟩, ⟨3, 3⟩⟩ : BulletState)])
        ∈ ([(1, [(⟨7, ⟨2, 2⟩, ⟨3, 3⟩⟩ : BulletState)])] : List (ℕ × List BulletState))) ∧
    ingestBullets
      (fun k => if k = 1 then
          some [Bullet.create ⟨0, 0⟩ ⟨0, 0⟩, Bullet.create ⟨1, 1⟩ ⟨0, 0⟩] else none)
      [(1, [⟨7, ⟨2, 2⟩, ⟨3, 3⟩⟩])] 1 =
      some ([(⟨7, ⟨2, 2⟩, ⟨3, 3⟩⟩ : BulletState)].map
        fun s => Bullet.create s.position s.velocity) := by
  refine ⟨by simp, by simp, ?_⟩
  exact c5_bullets_replaced _ _ 1 _ (by simp) (by simp)

/-- C4: in every camera state reachable in the program (the cameras
are constructed with the default `scale = 1`, then hit by any sequence
of updates, wheel zooms, shakes and debug pans), the culling predicate
used by `renderAll` holds for a world position `p` iff the drawn
screen position `worldToScreenCoords p` lies in the inclusive screen
rectangle `[0, w] × [0, h]` — for every scale the wheel can produce,
not only `scale = 1`. -/
theorem c4_culling_matches_drawing :
    ∀ (sinq : ℚ → ℚ) (w h : ℚ) (d0 : Vec2) (evs : List CamEvent) (p : Vec2),
      (runCam sinq (mkCamera d0 w h 1) evs).coordWithinBounds p = true ↔
        (0 ≤ (Camera.worldToScreenCoords w h (runCam sinq (mkCamera d0 w h 1) evs) p).x ∧
         (Camera.worldToScreenCoords w h (runCam sinq (mkCamera d0 w h 1) evs) p).x ≤ w ∧
         0 ≤ (Camera.worldToScreenCoords w h (runCam sinq (mkCamera d0 w h 1) evs) p).y ∧
         (Camera.worldToScreenCoords w h (runCam sinq (mkCamera d0 w h 1) evs) p).y ≤ h) := by
  intro sinq w h d0 evs p
  set c := runCam sinq (mkCamera d0 w h 1) evs with hc
  have haR : c.axesRadii = (⟨w / 2, h / 2⟩ : Vec2) := by
    rw [hc, runCam_axesRadii]
    simp [mkCamera, Vec2.ext_iff2]
  have hs : 0 < c.scale := by
    rw [hc]
    exact runCam_scale_pos _ _ _ (by norm_num [mkCamera])
  rw [coordWithinBounds_iff, haR]
  simp only [Camera.worldToScreenCoords]
  constructor
  · rintro ⟨h1, h2, h3, h4⟩
    refine ⟨?_, ?_, ?_, ?_⟩
    · exact (sub_div_le_iff_screen _ _ _ _ hs).mp h1
    · have := (le_add_div_iff_screen c.scale (w / 2) c.augmentedPosition.x p.x hs).mp h3
      linarith
    · exact (sub_div_le_iff_screen _ _ _ _ hs).mp h2
    · have := (le_add_div_iff_screen c.scale (h / 2) c.augmentedPosition.y p.y hs).mp h4
      linarith
  · rintro ⟨h1, h2, h3, h4⟩
    refine ⟨?_, ?_, ?_, ?_⟩
    · exact (sub_div_le_iff_screen _ _ _ _ hs).mpr h1
    · exact (sub_div_le_iff_screen _ _ _ _ hs).mpr h3
    · exact (le_add_div_iff_screen _ _ _ _ hs).mpr (by linarith)
    · exact (le_add_div_iff_screen _ _ _ _ hs).mpr (by linarith)

/-- C8: with a stationary destination and a camera starting
`FOLLOW_DISTANCE + 1` units away on the x axis (either side), the
per-axis distance to the destination under repeated `update(dt)` is
monotonically non-increasing, the signed difference never changes
sign (no overshoot), and the distance strictly decreases whenever the
follow step is active on that axis (magnitude above the 1-unit
arrival threshold). -/
theorem c8_follow_monotone :
    ∀ (sinq : ℚ → ℚ) (dest : Vec2) (dt : ℚ) (c0 : Camera),
      (dest.x - c0.pathPosition.x = FOLLOW_DISTANCE + 1 ∨
       dest.x - c0.pathPosition.x = -(FOLLOW_DISTANCE + 1)) →
      ∀ n : ℕ,
        |dest.x - (runUpdates sinq (fun _ => dest) dt c0 (n + 1)).pathPosition.x| ≤
          |dest.x - (runUpdates sinq (fun _ => dest) dt c0 n).pathPosition.x| ∧
        (0 ≤ dest.x - c0.pathPosition.x →
          0 ≤ dest.x - (runUpdates sinq (fun _ => dest) dt c0 n).pathPosition.x) ∧
        (dest.x - c0.pathPosition.x ≤ 0 →
          dest.x - (runUpdates sinq (fun _ => dest) dt c0 n).pathPosition.x ≤ 0) ∧
        (1 < |dest.x - (runUpdates sinq (fun _ => dest) dt c0 n).pathPosition.x| →
          |dest.x - (runUpdates sinq (fun _ => dest) dt c0 (n + 1)).pathPosition.x| <
            |dest.x - (runUpdates sinq (fun _ => dest) dt c0 n).pathPosition.x|) := by
  intro sinq dest dt c0 hstart n
  have habs : ∀ c : Camera,
      |dest.x - (Camera.update sinq dest dt c).pathPosition.x| ≤
        |dest.x - c.pathPosition.x| := by
    intro c
    rcases le_total 0 (dest.x - c.pathPosition.x) with h0 | h0
    · obtain ⟨ha, hb⟩ := (followStep_x sinq dest dt c).1 h0
      rw [abs_of_nonneg h0, abs_of_nonneg ha]
      exact hb
    · obtain ⟨ha, hb⟩ := (followStep_x sinq dest dt c).2.1 h0
      rw [abs_of_nonpos h0, abs_of_nonpos hb]
      linarith
  have hsign : ∀ k : ℕ,
      (0 ≤ dest.x - c0.pathPosition.x →
        0 ≤ dest.x - (runUpdates sinq (fun _ => dest) dt c0 k).pathPosition.x) ∧
      (dest.x - c0.pathPosition.x ≤ 0 →
        dest.x - (runUpdates sinq (fun _ => dest) dt c0 k).pathPosition.x ≤ 0) := by
    intro k
    induction k with
    | zero => exact ⟨id, id⟩
    | succ j ih =>
      constructor
      · intro h0
        exact ((followStep_x sinq dest dt (runUpdates sinq (fun _ => dest) dt c0 j)).1
          (ih.1 h0)).1
      · intro h0
        exact ((followStep_x sinq dest dt (runUpdates sinq (fun _ => dest) dt c0 j)).2.1
          (ih.2 h0)).2
  exact ⟨habs _, (hsign n).1, (hsign n).2,
    (followStep_x sinq dest dt (runUpdates sinq (fun _ => dest) dt c0 n)).2.2⟩

/-- C8 witness: the positive-side scenario (destination 51 units to
the right) at the first update. -/
theorem c8_follow_monotone_witness :
    ((⟨51, 0⟩ : Vec2).x - (mkCamera origin 800 600 1).pathPosition.x = FOLLOW_DISTANCE + 1) ∧
    |(⟨51, 0⟩ : Vec2).x -
        (runUpdates (fun _ => 0) (fun _ => ⟨51, 0⟩) (1 / 60)
          (mkCamera origin 800 600 1) 1).pathPosition.x| ≤
      |(⟨51, 0⟩ : Vec2).x -
        (runUpdates (fun _ => 0) (fun _ => ⟨51, 0⟩) (1 / 60)
          (mkCamera origin 800 600 1) 0).pathPosition.x| := by
  constructor
  · norm_num [mkCamera, origin, FOLLOW_DISTANCE]
  · exact (c8_follow_monotone (fun _ => 0) ⟨51, 0⟩ (1 / 60) (mkCamera origin 800 600 1)
      (Or.inl (by norm_num [mkCamera, origin, FOLLOW_DISTANCE])) 0).1

/-- C7 counterexample: with `dt = 1/2` the claim allows
`ceil(0.5/dt) = 1` update call for the shake to deactivate, but after
the trigger and 1 update the camera is still shaking (the code needs
`floor(0.5/dt) + 2 = 3` calls: the timer only advances while
`timer <= 0.5` and deactivation happens one call after the timer
first exceeds 0.5). -/
theorem c7_shake_duration_counterexample :
    (runUpdates (fun _ => 0) (fun _ => origin) (1 / 2)
        (Camera.shake (fun _ => 0) 0 (mkCamera origin 800 600 1)) 0).isShaking = true ∧
    (runUpdates (fun _ => 0) (fun _ => origin) (1 / 2)
        (Camera.shake (fun _ => 0) 0 (mkCamera origin 800 600 1)) 1).isShaking = true := by
  constructor <;>
    norm_num [runUpdates, Camera.update, Camera.shake, mkCamera, origin, subractVectors,
      addVectors]

/-- C7 (amended): after a shake is triggered on a camera at rest,
repeated `update(dt)` calls with fixed `dt > 0` deactivate the shake,
reset the timer to 0 and restore
`augmentedPosition = pathPosition` within `floor(0.5/dt) + 2` calls
(not `ceil(0.5/dt)`), for every oscillation kernel, destination
sequence, and trigger `deltaTime >= 0`. -/
theorem c7_shake_duration_amended :
    ∀ (sinq : ℚ → ℚ) (dests : ℕ → Vec2) (dt dt0 : ℚ) (c : Camera),
      0 < dt → 0 ≤ dt0 → c.isShaking = false → c.shakeTimeElapsed = 0 →
      (runUpdates sinq dests dt (Camera.shake sinq dt0 c)
          ((⌊(1 / 2 : ℚ) / dt⌋).toNat + 2)).isShaking = false ∧
      (runUpdates sinq dests dt (Camera.shake sinq dt0 c)
          ((⌊(1 / 2 : ℚ) / dt⌋).toNat + 2)).shakeTimeElapsed = 0 ∧
      (runUpdates sinq dests dt (Camera.shake sinq dt0 c)
          ((⌊(1 / 2 : ℚ) / dt⌋).toNat + 2)).augmentedPosition =
        (runUpdates sinq dests dt (Camera.shake sinq dt0 c)
          ((⌊(1 / 2 : ℚ) / dt⌋).toNat + 2)).pathPosition := by
  intro sinq dests dt dt0 c hdt hdt0 hsk ht0
  obtain ⟨htrig1, htrig2⟩ := shake_trigger sinq dt0 c hsk ht0
  have hrest_step : ∀ (d : Vec2) (s : Camera),
      s.isShaking = false → s.shakeTimeElapsed = 0 →
      (Camera.update sinq d dt s).isShaking = false ∧
      (Camera.update sinq d dt s).shakeTimeElapsed = 0 ∧
      (Camera.update sinq d dt s).augmentedPosition =
        (Camera.update sinq d dt s).pathPosition := by
    intro d s h1 h2
    obtain ⟨a, b, c'⟩ := update_of_not_shaking sinq d dt s h1
    exact ⟨a, by rw [b, h2], c'⟩
  have hinv : ∀ k : ℕ,
      ((runUpdates sinq dests dt (Camera.shake sinq dt0 c) k).isShaking = false ∧
       (runUpdates sinq dests dt (Camera.shake sinq dt0 c) k).shakeTimeElapsed = 0 ∧
       (runUpdates sinq dests dt (Camera.shake sinq dt0 c) k).augmentedPosition =
         (runUpdates sinq dests dt (Camera.shake sinq dt0 c) k).pathPosition) ∨
      ((runUpdates sinq dests dt (Camera.shake sinq dt0 c) k).isShaking = true ∧
       (k : ℚ) * dt ≤ (runUpdates sinq dests dt (Camera.shake sinq dt0 c) k).shakeTimeElapsed) := by
    intro k
    induction k with
    | zero =>
      right
      refine ⟨htrig1, ?_⟩
      show (0 : ℕ) * dt ≤ (Camera.shake sinq dt0 c).shakeTimeElapsed
      rw [htrig2]
      push_cast
      linarith
    | succ j ih =>
      rcases ih with ⟨h1, h2, h3⟩ | ⟨h1, h2⟩
      · left
        exact hrest_step (dests j) _ h1 h2
      · by_cases hts :
          (runUpdates sinq dests dt (Camera.shake sinq dt0 c) j).shakeTimeElapsed ≤ 1 / 2
        · right
          obtain ⟨a, b⟩ := update_of_shaking_le sinq (dests j) dt _ h1 hts
          refine ⟨a, ?_⟩
          show ((j + 1 : ℕ) : ℚ) * dt ≤ _
          rw [show runUpdates sinq dests dt (Camera.shake sinq dt0 c) (j + 1) =
            Camera.update sinq (dests j) dt
              (runUpdates sinq dests dt (Camera.shake sinq dt0 c) j) from rfl, b]
          push_cast
          linarith
        · left
          exact update_of_shaking_gt sinq (dests j) dt _ h1 hts
  have hfl : (0 : ℤ) ≤ ⌊(1 / 2 : ℚ) / dt⌋ :=
    Int.floor_nonneg.mpr (by positivity)
  have hk0 : 1 / 2 < (((⌊(1 / 2 : ℚ) / dt⌋).toNat + 1 : ℕ) : ℚ) * dt := by
    have hlt : (1 / 2 : ℚ) / dt < (⌊(1 / 2 : ℚ) / dt⌋ : ℚ) + 1 := Int.lt_floor_add_one _
    have hcast : (((⌊(1 / 2 : ℚ) / dt⌋).toNat + 1 : ℕ) : ℚ) = (⌊(1 / 2 : ℚ) / dt⌋ : ℚ) + 1 := by
      have h1 : ((⌊(1 / 2 : ℚ) / dt⌋.toNat : ℕ) : ℤ) = ⌊(1 / 2 : ℚ) / dt⌋ :=
        Int.toNat_of_nonneg hfl
      rw [Nat.cast_add, Nat.cast_one, ← Int.cast_natCast (R := ℚ), h1]
    rw [hcast]
    calc (1 / 2 : ℚ) = ((1 / 2) / dt) * dt := by field_simp
    _ < ((⌊(1 / 2 : ℚ) / dt⌋ : ℚ) + 1) * dt := mul_lt_mul_of_pos_right hlt hdt
  rcases hinv ((⌊(1 / 2 : ℚ) / dt⌋).toNat + 1) with hdone | ⟨h1, h2⟩
  · exact hrest_step (dests ((⌊(1 / 2 : ℚ) / dt⌋).toNat + 1)) _ hdone.1 hdone.2.1
  · have hgt : ¬ (runUpdates sinq dests dt (Camera.shake sinq dt0 c)
        ((⌊(1 / 2 : ℚ) / dt⌋).toNat + 1)).shakeTimeElapsed ≤ 1 / 2 := by
      push_neg
      calc (1 / 2 : ℚ) < (((⌊(1 / 2 : ℚ) / dt⌋).toNat + 1 : ℕ) : ℚ) * dt := hk0
      _ ≤ _ := h2
    exact update_of_shaking_gt sinq (dests ((⌊(1 / 2 : ℚ) / dt⌋).toNat + 1)) dt _ h1 hgt

/-- C7 witness: the amended bound at `dt = 1/2` (3 update calls). -/
theorem c7_shake_duration_witness :
    (0 : ℚ) < 1 / 2 ∧ (0 : ℚ) ≤ 0 ∧ (mkCamera origin 800 600 1).isShaking = false ∧
    (mkCamera origin 800 600 1).shakeTimeElapsed = 0 ∧
    (runUpdates (fun _ => 0) (fun _ => origin) (1 / 2)
        (Camera.shake (fun _ => 0) 0 (mkCamera origin 800 600 1))
        ((⌊(1 / 2 : ℚ) / (1 / 2 : ℚ)⌋).toNat + 2)).isShaking = false := by
  refine ⟨by norm_num, le_refl 0, rfl, rfl, ?_⟩
  exact (c7_shake_duration_amended (fun _ => 0) (fun _ => origin) (1 / 2) 0
    (mkCamera origin 800 600 1) (by norm_num) (le_refl 0) rfl rfl).1

/-- C1 (code bug): evaluation at the failing input.  With
`pathPosition = (0,0)` and destination `(-100,0)` — 100 units away to
the left, beyond `FOLLOW_DISTANCE` — one `update` takes the lerp
branch (the code compares the signed `diff.x <= FOLLOW_DISTANCE`
instead of `|diff.x|`), moving to `(-10,0)`: the remaining distance
is 90, not the exactly-50 the claim (and the method's own doc
comment, which the dead `Math.sign` factor in the clamp branch
corroborates) requires; the mirrored destination `(100,0)` does clamp
to distance exactly 50. -/
theorem c1_clamp_asymmetry_eval :
    (Camera.update (fun _ => 0) ⟨-100, 0⟩ (1 / 100) (mkCamera origin 800 600 1)).pathPosition
      = ⟨-10, 0⟩ ∧
    |(⟨-100, 0⟩ : Vec2).x -
        (Camera.update (fun _ => 0) ⟨-100, 0⟩ (1 / 100)
          (mkCamera origin 800 600 1)).pathPosition.x| = 90 ∧
    (90 : ℚ) ≠ FOLLOW_DISTANCE ∧
    (Camera.update (fun _ => 0) ⟨100, 0⟩ (1 / 100) (mkCamera origin 800 600 1)).pathPosition
      = ⟨50, 0⟩ := by
  refine ⟨?_, ?_, by norm_num [FOLLOW_DISTANCE], ?_⟩ <;>
    norm_num [Camera.update, Camera.shake, mkCamera, origin, subractVectors, addVectors,
      FOLLOW_DISTANCE, lerpFactor, jsSign, Vec2.ext_iff2]
